import Mathlib

/-!
Verification development for the client-side Firestore sync layer
(`firebase-db.js`, `firebase-auth.js`): value codec between native JS
values and the Firestore tagged wire format, session-history bounding,
the read/refresh/retry control flow, document creation, field-masked
partial updates, and the localStorage migration routine.

JS values are modelled by a mutual inductive family (`JSVal` for a single
value, `JSList` for a JS array's elements, `JSFields` for an object's own
enumerable string-keyed entries in insertion order).  JS numbers are
modelled by `Int`: the codec only copies numbers verbatim, so the payload
type is opaque to everything proved here.  A `Date` object is modelled by
its ISO-8601 string (`new Date(iso).toISOString() = iso` for canonical
inputs, which is all the codec produces).  `func` stands for any value
whose `typeof` is neither a supported primitive nor `'object'`
(functions); `vundefined` is JS `undefined`.
-/

mutual

inductive JSVal where
  | vnull
  | vundefined
  | num (n : Int)
  | str (s : String)
  | boolean (b : Bool)
  | date (iso : String)
  | func
  | arr (xs : JSList)
  | obj (fs : JSFields)
deriving DecidableEq

inductive JSList where
  | nil
  | cons (x : JSVal) (xs : JSList)
deriving DecidableEq

inductive JSFields where
  | nil
  | cons (k : String) (v : JSVal) (fs : JSFields)
deriving DecidableEq

end

/-- Association lookup in a JS object's fields (property access `o[k]`);
`none` models the property being absent (value `undefined`). -/
def JSFields.lookup : JSFields → String → Option JSVal
  | .nil, _ => none
  | .cons k' v fs, k => if k' = k then some v else fs.lookup k

def JSList.length : JSList → Nat
  | .nil => 0
  | .cons _ xs => 1 + xs.length

/-- Model of `Array.prototype.slice(0, n)`. -/
def JSList.take : JSList → Nat → JSList
  | _, 0 => .nil
  | .nil, _ => .nil
  | .cons x xs, n + 1 => .cons x (xs.take n)

/-!
The Firestore tagged wire value (`FireVal`).  Each constructor is one of
the mutually exclusive tag fields that `parseFirestoreValue` tests for;
`unknown` models a JSON object carrying none of the recognized tags
(the function's fall-through `return null`).  `mapValue`/`arrayValue`
record whether the inner `fields`/`values` member is present, mirroring
the `value.mapValue.fields || {}` and `value.arrayValue.values || []`
defaults.  `integerValue` carries the parsed integer (the wire sends a
decimal string which `parseInt` reads back).  `undefinedSlot` is the JS
`undefined` slot that `objectToFirestoreFields` can place inside an
`arrayValue` (see `encodeItem` below); it is not a wire value.
-/

mutual

inductive FireVal where
  | stringValue (s : String)
  | doubleValue (n : Int)
  | integerValue (n : Int)
  | booleanValue (b : Bool)
  | timestampValue (s : String)
  | nullValue
  | mapValue (fields : FireFieldsOpt)
  | arrayValue (values : FireListOpt)
  | unknown
  | undefinedSlot
deriving DecidableEq

inductive FireFieldsOpt where
  | noFields
  | someFields (fs : FireFields)
deriving DecidableEq

inductive FireListOpt where
  | noValues
  | someValues (vs : FireList)
deriving DecidableEq

inductive FireFields where
  | nil
  | cons (k : String) (v : FireVal) (fs : FireFields)
deriving DecidableEq

inductive FireList where
  | nil
  | cons (v : FireVal) (vs : FireList)
deriving DecidableEq

end

def FireFields.lookup : FireFields → String → Option FireVal
  | .nil, _ => none
  | .cons k' v fs, k => if k' = k then some v else fs.lookup k

def FireFields.keys : FireFields → List String
  | .nil => []
  | .cons k _ fs => k :: fs.keys

def FireList.length : FireList → Nat
  | .nil => 0
  | .cons _ vs => 1 + vs.length

/-- Outcome of the `if`/`else if` chain of `objectToFirestoreFields` for a
single entry value: `thrown` models a thrown exception propagating out,
`skip` models no branch matching (the entry is silently omitted from the
result), `okv` the produced wire value. -/
inductive EncRes where
  | thrown
  | skip
  | okv (v : FireVal)
deriving DecidableEq

/-!
`objectToFirestoreFields` (firebase-db.js:258-293).  The JS function
walks `Object.entries(obj)` and dispatches on each entry's value:
null/undefined → `nullValue`, number → `doubleValue`, string →
`stringValue`, boolean → `booleanValue`, `Date` → `timestampValue`,
array → `arrayValue` (per-item rule below), other objects → recursive
`mapValue`; any other value (e.g. a function) matches no branch and the
key is silently dropped.

Per array item the JS tests `typeof item === 'object'` — true for plain
objects but also for `null` (then `Object.entries(null)` throws a
TypeError), for `Date` objects (whose `Object.entries` is `[]`, giving an
empty `mapValue`), and for nested arrays (whose `Object.entries` is the
index-keyed entry list `[["0", x0], ["1", x1], ...]`, giving a
`mapValue` keyed by decimal indices).  A non-object item is routed
through `objectToFirestoreFields({val: item}).val`, which for a function
item yields the JS `undefined` slot (`undefinedSlot`).
-/

mutual

/-- One entry value of `objectToFirestoreFields`' `for` loop. -/
def encodeFieldValue : JSVal → EncRes
  | .vnull => .okv .nullValue
  | .vundefined => .okv .nullValue
  | .num n => .okv (.doubleValue n)
  | .str s => .okv (.stringValue s)
  | .boolean b => .okv (.booleanValue b)
  | .date iso => .okv (.timestampValue iso)
  | .arr xs =>
    match encodeItems xs with
    | none => .thrown
    | some vs => .okv (.arrayValue (.someValues vs))
  | .obj fs =>
    match encodeFields fs with
    | none => .thrown
    | some efs => .okv (.mapValue (.someFields efs))
  | .func => .skip

/-- One element of the `value.map(item => ...)` callback in the array
branch of `objectToFirestoreFields`. -/
def encodeItem : JSVal → EncRes
  | .vnull => .thrown
  | .obj fs =>
    match encodeFields fs with
    | none => .thrown
    | some efs => .okv (.mapValue (.someFields efs))
  | .arr xs =>
    match encodeFieldsIdx 0 xs with
    | none => .thrown
    | some efs => .okv (.mapValue (.someFields efs))
  | .date _ => .okv (.mapValue (.someFields .nil))
  | .vundefined => .okv .nullValue
  | .num n => .okv (.doubleValue n)
  | .str s => .okv (.stringValue s)
  | .boolean b => .okv (.booleanValue b)
  | .func => .okv .undefinedSlot

/-- The `for (const [key, value] of Object.entries(obj))` loop body over
an object's entries; `none` models a thrown exception. -/
def encodeFields : JSFields → Option FireFields
  | .nil => some .nil
  | .cons k v fs =>
    match encodeFieldValue v with
    | .thrown => none
    | .skip => encodeFields fs
    | .okv fv =>
      match encodeFields fs with
      | none => none
      | some efs => some (.cons k fv efs)

def encodeItems : JSList → Option FireList
  | .nil => some .nil
  | .cons x xs =>
    match encodeItem x with
    | .thrown => none
    | .skip => encodeItems xs
    | .okv fv =>
      match encodeItems xs with
      | none => none
      | some vs => some (.cons fv vs)

/-- Encoding of `objectToFirestoreFields` applied to an array's `Object.entries`,
whose keys are the decimal element indices. -/
def encodeFieldsIdx : Nat → JSList → Option FireFields
  | _, .nil => some .nil
  | i, .cons x xs =>
    match encodeFieldValue x with
    | .thrown => none
    | .skip => encodeFieldsIdx (i + 1) xs
    | .okv fv =>
      match encodeFieldsIdx (i + 1) xs with
      | none => none
      | some efs => some (.cons (toString i) fv efs)

end

/-- Model of `objectToFirestoreFields(obj)`: the whole function on an object's
entry list; `none` models a thrown exception. -/
def objectToFirestoreFields (fs : JSFields) : Option FireFields :=
  encodeFields fs

/-- Model of `Object.entries` of an arbitrary JS value, as used when
`objectToFirestoreFields` is applied to a non-object (e.g. a session
value drawn from a decoded document, or a primitive `personalBests`):
objects give their fields, arrays and strings give index-keyed entries,
`null`/`undefined` throw, every other value gives no entries. -/
def objectToFirestoreFieldsV : JSVal → Option FireFields
  | .vnull => none
  | .vundefined => none
  | .obj fs => encodeFields fs
  | .arr xs => encodeFieldsIdx 0 xs
  | .str s => encodeFieldsIdx 0 (strChars s.toList)
  | .num _ => some .nil
  | .boolean _ => some .nil
  | .date _ => some .nil
  | .func => some .nil
where
  strChars : List Char → JSList
    | [] => .nil
    | c :: cs => .cons (.str (String.mk [c])) (strChars cs)

/-!
`parseFirestoreValue` (firebase-db.js:318-351) and
`parseFirestoreDocument` (firebase-db.js:300-311).  The JS function tests
the tag fields in a fixed order and falls through to `return null`;
result `none` models the TypeError thrown when the value is the JS
`undefined` slot (`value.stringValue` on `undefined`).
-/

mutual

def parseFirestoreValue : FireVal → Option JSVal
  | .stringValue s => some (.str s)
  | .doubleValue n => some (.num n)
  | .integerValue n => some (.num n)
  | .booleanValue b => some (.boolean b)
  | .timestampValue s => some (.date s)
  | .nullValue => some .vnull
  | .mapValue .noFields => some (.obj .nil)
  | .mapValue (.someFields fs) =>
    match parseFields fs with
    | none => none
    | some pfs => some (.obj pfs)
  | .arrayValue .noValues => some (.arr .nil)
  | .arrayValue (.someValues vs) =>
    match parseItems vs with
    | none => none
    | some pvs => some (.arr pvs)
  | .unknown => some .vnull
  | .undefinedSlot => none

def parseFields : FireFields → Option JSFields
  | .nil => some .nil
  | .cons k v fs =>
    match parseFirestoreValue v with
    | none => none
    | some pv =>
      match parseFields fs with
      | none => none
      | some pfs => some (.cons k pv pfs)

def parseItems : FireList → Option JSList
  | .nil => some .nil
  | .cons v vs =>
    match parseFirestoreValue v with
    | none => none
    | some pv =>
      match parseItems vs with
      | none => none
      | some pvs => some (.cons pv pvs)

end

/-- Model of `parseFirestoreDocument(doc)`: a missing document or a document with
no `fields` member decodes to the empty object. -/
def parseFirestoreDocument : Option FireFields → Option JSFields
  | none => some .nil
  | some fs => parseFields fs

/-!
Session-history bounding (firebase-db.js:169-175): the new session is
`unshift`ed onto the front of the category's `sessions` array and the
array is truncated with `slice(0, 30)` when its length exceeds 30.
`updateSessions` is the generic list transformer; `updateSessionsJS` the
same operation on a JS array value.
-/

def updateSessions {α : Type} (sessions : List α) (s : α) : List α :=
  let l := s :: sessions
  if l.length > 30 then l.take 30 else l

def runUpdates {α : Type} (init : List α) (news : List α) : List α :=
  news.foldl updateSessions init

def updateSessionsJS (sessions : JSList) (s : JSVal) : JSList :=
  let l := JSList.cons s sessions
  if l.length > 30 then l.take 30 else l

/-!
`getDefaultGameFields` (firebase-db.js:235-251) and the `initialData`
literal of `createUserDocument` (firebase-db.js:104-124).  `now` stands
for `new Date().toISOString()` at the moment of the call.  The signed-in
user's profile fields default to the empty string (`user.email || ''`).
-/

structure GUser where
  email : Option String
  displayName : Option String
  photoURL : Option String
deriving DecidableEq

def getDefaultGameFields (now : String) : FireFields :=
  .cons "personalBests"
    (.mapValue (.someFields
      (.cons "sessionsPlayed" (.doubleValue 0)
        (.cons "lastPlayed" (.timestampValue now) .nil))))
    (.cons "sessions" (.arrayValue (.someValues .nil)) .nil)

def gameCategories : List String :=
  ["typing", "dualNBack", "mathGame", "speedProcessing", "stroop", "cpt",
   "taskSwitching"]

def createInitialFields (u : GUser) (now : String) : FireFields :=
  .cons "profile"
    (.mapValue (.someFields
      (.cons "email" (.stringValue (u.email.getD ""))
        (.cons "displayName" (.stringValue (u.displayName.getD ""))
          (.cons "photoURL" (.stringValue (u.photoURL.getD ""))
            (.cons "createdAt" (.timestampValue now) .nil))))))
    (.cons "typing" (.mapValue (.someFields (getDefaultGameFields now)))
      (.cons "dualNBack" (.mapValue (.someFields (getDefaultGameFields now)))
        (.cons "mathGame" (.mapValue (.someFields (getDefaultGameFields now)))
          (.cons "speedProcessing"
              (.mapValue (.someFields (getDefaultGameFields now)))
            (.cons "stroop" (.mapValue (.someFields (getDefaultGameFields now)))
              (.cons "cpt" (.mapValue (.someFields (getDefaultGameFields now)))
                (.cons "taskSwitching"
                    (.mapValue (.someFields (getDefaultGameFields now)))
                  .nil)))))))

/-!
Trace model of the stateful layer.  `sessionStorage` keys used by the two
modules are collected in `Sess` (`userId`, `firebaseToken`,
`refreshToken`) together with the auth module's `currentUser` global.
HTTP is modelled by an oracle: a list of pending `Resp`onses consumed one
per `fetch`, and a log of the issued requests (`Ev`).  An exhausted
oracle models a network-level fetch rejection.
-/

structure Resp where
  status : Nat
  docFields : Option FireFields
  idToken : String
  newRefresh : String
deriving DecidableEq

structure Sess where
  userId : Option String
  firebaseToken : Option String
  refreshToken : Option String
  currentUser : Option GUser
deriving DecidableEq

inductive Ev where
  | readFetch (token : String)
  | createFetch (token : String) (fields : FireFields)
  | patchFetch (token : String) (mask : List String) (fields : FireFields)
  | refreshFetch (refreshToken : String)
deriving DecidableEq

structure St where
  sess : Sess
  store : List (String × String)
  resps : List Resp
  log : List Ev
deriving DecidableEq

/-- One `fetch`: consume the next oracle response, recording the request. -/
def fetchSt (st : St) (ev : Ev) : Option (Resp × St) :=
  match st.resps with
  | [] => none
  | r :: rs => some (r, { st with resps := rs, log := st.log ++ [ev] })

/-- Model of `Response.ok`: status in the inclusive range 200-299. -/
def respOk (status : Nat) : Bool :=
  200 ≤ status && status < 300

inductive DbErr where
  | notAuthenticated
  | networkFailure
  | readFailed
  | readRetryFailed
  | createFailed
  | updateFailed
  | noRefreshToken
  | refreshFailed
  | typeError
deriving DecidableEq

/-- Model of `refreshAuthToken` (firebase-auth.js:225-255): throws when no refresh
token is stored; POSTs the refresh token; on a non-ok response throws
`Failed to refresh token` — note that it does NOT clear the stored
tokens and does not sign the user out; on success stores the new token
pair and returns the new ID token. -/
def refreshAuthToken (st : St) : St × Except DbErr String :=
  match st.sess.refreshToken with
  | none => (st, .error .noRefreshToken)
  | some rt =>
    match fetchSt st (.refreshFetch rt) with
    | none => (st, .error .networkFailure)
    | some (r, st1) =>
      if respOk r.status then
        ({ st1 with
            sess := { st1.sess with
              firebaseToken := some r.idToken,
              refreshToken := some r.newRefresh } },
          .ok r.idToken)
      else
        (st1, .error .refreshFailed)

/-- Model of `readUserDataWithToken` (firebase-db.js:71-90): one GET with the given
token; any non-ok response (including a second 401) throws — there is no
second refresh or retry. -/
def readUserDataWithToken (st : St) (token : String) :
    St × Except DbErr JSFields :=
  match fetchSt st (.readFetch token) with
  | none => (st, .error .networkFailure)
  | some (r, st1) =>
    if respOk r.status then
      match parseFirestoreDocument r.docFields with
      | none => (st1, .error .typeError)
      | some ud => (st1, .ok ud)
    else
      (st1, .error .readRetryFailed)

/-- Model of `createUserDocument` (firebase-db.js:96-147): PATCH (no field mask) of
the `initialData` literal, then parse of the response body.  Accessing
`user.email` with no current user throws. -/
def createUserDocument (st : St) (now : String) : St × Except DbErr JSFields :=
  match st.sess.currentUser with
  | none => (st, .error .typeError)
  | some u =>
    match fetchSt st (.createFetch (st.sess.firebaseToken.getD "null")
        (createInitialFields u now)) with
    | none => (st, .error .networkFailure)
    | some (r, st1) =>
      if respOk r.status then
        match parseFirestoreDocument r.docFields with
        | none => (st1, .error .typeError)
        | some ud => (st1, .ok ud)
      else
        (st1, .error .createFailed)

/-- Model of `readUserData` (firebase-db.js:23-64): requires `userId` and a token;
GET; 404 → `createUserDocument`; other non-ok → on 401 exactly one
`refreshAuthToken` followed (only when the refresh succeeded) by exactly
one `readUserDataWithToken`, any other status throws; ok → parse. -/
def readUserData (st : St) (now : String) : St × Except DbErr JSFields :=
  match st.sess.userId, st.sess.firebaseToken with
  | none, _ => (st, .error .notAuthenticated)
  | _, none => (st, .error .notAuthenticated)
  | some _, some token =>
    match fetchSt st (.readFetch token) with
    | none => (st, .error .networkFailure)
    | some (r, st1) =>
      if r.status = 404 then
        createUserDocument st1 now
      else if respOk r.status then
        match parseFirestoreDocument r.docFields with
        | none => (st1, .error .typeError)
        | some ud => (st1, .ok ud)
      else if r.status = 401 then
        match refreshAuthToken st1 with
        | (st2, .error e) => (st2, .error e)
        | (st2, .ok newToken) => readUserDataWithToken st2 newToken
      else
        (st1, .error .readFailed)

/-- JS truthiness of a modelled value (`NaN` is not modelled: `num`
carries an integer payload). -/
def isFalsy : JSVal → Bool
  | .vnull => true
  | .vundefined => true
  | .boolean b => !b
  | .num n => n = 0
  | .str s => s = ""
  | .date _ => false
  | .func => false
  | .arr _ => false
  | .obj _ => false

/-- The `{ sessions: [], personalBests: {} }` default taken when
`userData[gameName]` is absent or falsy (firebase-db.js:167). -/
def defaultGameData : JSVal :=
  .obj (.cons "sessions" (.arr .nil) (.cons "personalBests" (.obj .nil) .nil))

/-- The single-field update body built by `updateGameData`
(firebase-db.js:181-204): only the named category appears as a top-level
field, holding the freshly encoded `personalBests` and `sessions`. -/
def updateGameFields (gameName : String) (pbf : FireFields)
    (sessEnc : FireList) : FireFields :=
  .cons gameName
    (.mapValue (.someFields
      (.cons "personalBests" (.mapValue (.someFields pbf))
        (.cons "sessions" (.arrayValue (.someValues sessEnc)) .nil))))
    .nil

/-- The `updateMask.fieldPaths` query parameter of the PATCH URL
(firebase-db.js:208): exactly the named category. -/
def updateGameMask (gameName : String) : List String :=
  [gameName]

/-- Encoding of the truncated session list:
`sessions.map(session => ({ mapValue: { fields:
objectToFirestoreFields(session) } }))`; `none` models a thrown encoding
exception. -/
def encodeSessionList : JSList → Option FireList
  | .nil => some .nil
  | .cons s rest =>
    match objectToFirestoreFieldsV s with
    | none => none
    | some efs =>
      match encodeSessionList rest with
      | none => none
      | some evs => some (.cons (.mapValue (.someFields efs)) evs)

/-- Model of `updateGameData` (firebase-db.js:156-229): check credentials, read the
whole record (with the read path's own refresh-retry), take the named
category's sub-record or the empty default, `unshift` the session and
truncate to 30, encode, and PATCH the single category field under a field
mask.  The PATCH uses the token captured at entry, and a non-ok PATCH
response — 401 included — throws with no refresh and no retry. -/
def updateGameData (st : St) (now : String) (gameName : String)
    (sessionData : JSVal) (personalBests : JSVal) : St × Except DbErr Unit :=
  match st.sess.userId, st.sess.firebaseToken with
  | none, _ => (st, .error .notAuthenticated)
  | _, none => (st, .error .notAuthenticated)
  | some _, some token =>
    match readUserData st now with
    | (st1, .error e) => (st1, .error e)
    | (st1, .ok userData) =>
      match
        (match userData.lookup gameName with
         | none => defaultGameData
         | some v => if isFalsy v then defaultGameData else v) with
      | .obj gfs =>
        match gfs.lookup "sessions" with
        | some (.arr sessions) =>
          match objectToFirestoreFieldsV personalBests with
          | none => (st1, .error .typeError)
          | some pbf =>
            match encodeSessionList (updateSessionsJS sessions sessionData) with
            | none => (st1, .error .typeError)
            | some sessEnc =>
              match fetchSt st1
                  (.patchFetch token (updateGameMask gameName)
                    (updateGameFields gameName pbf sessEnc)) with
              | none => (st1, .error .networkFailure)
              | some (r, st2) =>
                if respOk r.status then (st2, .ok ())
                else (st2, .error .updateFailed)
        | _ => (st1, .error .typeError)
      | _ => (st1, .error .typeError)

/-- Modelled from the spec: the remote store applies a PATCH with a
field-mask query parameter by replacing exactly the masked top-level
fields with the request's fields (deleting a masked field the request
omits) and leaving every other field of the stored document unchanged
(§6: "PATCH with an optional field-mask query parameter restricting the
write to named top-level fields").  The server itself is an external
collaborator, not repository code; only the request construction
(`updateGameFields`, `updateGameMask`) is from the source.  The result is
the per-key view of the stored document after the write. -/
def applyMaskedPatch (doc : FireFields) (mask : List String)
    (upd : FireFields) (k : String) : Option FireVal :=
  if k ∈ mask then upd.lookup k else doc.lookup k

/-!
`migrateLocalStorage` (firebase-db.js:359-389) and its helpers.
`localStorage` is the `store` association list of `St`.  `JSON.parse` is
an external builtin: the model takes it as a parameter `parseJson`, with
`none` modelling a parse exception.
-/

def lookupStore : List (String × String) → String → Option String
  | [], _ => none
  | (k', v) :: rest, k => if k' = k then some v else lookupStore rest k

def removeStore : List (String × String) → String → List (String × String)
  | [], _ => []
  | (k', v) :: rest, k =>
    if k' = k then removeStore rest k else (k', v) :: removeStore rest k

/-- Property read `pd.lastPlayed` on an arbitrary parsed value: throws on
`null` (JSON.parse can produce it), yields the property on objects, and
`undefined` on every other value. -/
def jsGetProp (v : JSVal) (k : String) : Except Unit (Option JSVal) :=
  match v with
  | .vnull => .error ()
  | .obj fs => .ok (fs.lookup k)
  | _ => .ok none

/-- Object-spread source entries of `{...pd}`: own enumerable entries
(objects: their fields; arrays and strings: index-keyed; anything else:
none — spreading `null` or a primitive adds no entries). -/
def spreadEntries : JSVal → JSFields
  | .obj fs => fs
  | .arr xs => idx 0 xs
  | .str s => chars 0 s.toList
  | _ => .nil
where
  idx : Nat → JSList → JSFields
    | _, .nil => .nil
    | i, .cons x xs => .cons (toString i) x (idx (i + 1) xs)
  chars : Nat → List Char → JSFields
    | _, [] => .nil
    | i, c :: cs => .cons (toString i) (.str (String.mk [c])) (chars (i + 1) cs)

/-- Assignment `o[k] = v` in an object literal: overwrites in place when
the key exists (keeping its original position), else appends. -/
def JSFields.setKey : JSFields → String → JSVal → JSFields
  | .nil, k, v => .cons k v .nil
  | .cons k' v' fs, k, v =>
    if k' = k then .cons k' v fs else .cons k' v' (fs.setKey k v)

def JSFields.removeKey : JSFields → String → JSFields
  | .nil, _ => .nil
  | .cons k' v fs, k =>
    if k' = k then fs.removeKey k else .cons k' v (fs.removeKey k)

def spreadOnto (base : JSFields) : JSFields → JSFields
  | .nil => base
  | .cons k v fs => spreadOnto (base.setKey k v) fs

/-- The session object built by `migrateLocalStorage` (firebase-db.js:
369-375): `{ timestamp: parsedData.lastPlayed || now, ...parsedData }`
followed by `delete session.lastPlayed`. -/
def migrationSession (pd : JSVal) (lastPlayed : Option JSVal) (now : String) :
    JSFields :=
  let ts : JSVal :=
    match lastPlayed with
    | none => .str now
    | some v => if isFalsy v then .str now else v
  (spreadOnto (.cons "timestamp" ts .nil) (spreadEntries pd)).removeKey
    "lastPlayed"

/-- Model of `migrateLocalStorage` (firebase-db.js:359-389): absent (or empty,
hence falsy) legacy value → `false` with no work; any thrown step —
JSON.parse, property access on `null`, or the `updateGameData` sync —
is caught and yields `false`, leaving the legacy record in place; the
legacy record is removed only after `updateGameData` returned
successfully. -/
def migrateLocalStorage (parseJson : String → Option JSVal) (st : St)
    (now : String) (gameName : String) (storageKey : String) : St × Bool :=
  match lookupStore st.store storageKey with
  | none => (st, false)
  | some s =>
    if s = "" then (st, false)
    else
      match parseJson s with
      | none => (st, false)
      | some pd =>
        match jsGetProp pd "lastPlayed" with
        | .error _ => (st, false)
        | .ok lp =>
          match updateGameData st now gameName
              (.obj (migrationSession pd lp now)) pd with
          | (st1, .error _) => (st1, false)
          | (st1, .ok _) =>
            ({ st1 with store := removeStore st1.store storageKey }, true)

/-!
Round-trip support.  `goodField` delimits the values for which
`decode ∘ encode` is the identity: any supported scalar, `null`, a
`Date`, a nested object of such values — but an array element must be a
number, string, boolean, or nested object (`goodItem`), because the
encoder's array branch mangles `null` (throws), `Date` (empty map) and
nested arrays (index-keyed map) items.
-/

mutual

def goodField : JSVal → Bool
  | .vnull => true
  | .vundefined => false
  | .num _ => true
  | .str _ => true
  | .boolean _ => true
  | .date _ => true
  | .func => false
  | .arr xs => goodItems xs
  | .obj fs => goodFields fs

def goodItem : JSVal → Bool
  | .num _ => true
  | .str _ => true
  | .boolean _ => true
  | .obj fs => goodFields fs
  | _ => false

def goodFields : JSFields → Bool
  | .nil => true
  | .cons _ v fs => goodField v && goodFields fs

def goodItems : JSList → Bool
  | .nil => true
  | .cons x xs => goodItem x && goodItems xs

end

mutual

theorem rt_field (v : JSVal) (h : goodField v = true) :
    ∃ fv, encodeFieldValue v = .okv fv ∧ parseFirestoreValue fv = some v := by
  match v with
  | .vnull => exact ⟨.nullValue, rfl, rfl⟩
  | .num n => exact ⟨.doubleValue n, rfl, rfl⟩
  | .str s => exact ⟨.stringValue s, rfl, rfl⟩
  | .boolean b => exact ⟨.booleanValue b, rfl, rfl⟩
  | .date iso => exact ⟨.timestampValue iso, rfl, rfl⟩
  | .vundefined => simp [goodField] at h
  | .func => simp [goodField] at h
  | .arr xs =>
    rw [goodField] at h
    obtain ⟨vs, h1, h2⟩ := rt_items xs h
    refine ⟨.arrayValue (.someValues vs), ?_, ?_⟩
    · rw [encodeFieldValue, h1]
    · rw [parseFirestoreValue, h2]
  | .obj fs =>
    rw [goodField] at h
    obtain ⟨efs, h1, h2⟩ := rt_fields fs h
    refine ⟨.mapValue (.someFields efs), ?_, ?_⟩
    · rw [encodeFieldValue, h1]
    · rw [parseFirestoreValue, h2]

theorem rt_item (v : JSVal) (h : goodItem v = true) :
    ∃ fv, encodeItem v = .okv fv ∧ parseFirestoreValue fv = some v := by
  match v with
  | .num n => exact ⟨.doubleValue n, rfl, rfl⟩
  | .str s => exact ⟨.stringValue s, rfl, rfl⟩
  | .boolean b => exact ⟨.booleanValue b, rfl, rfl⟩
  | .obj fs =>
    rw [goodItem] at h
    obtain ⟨efs, h1, h2⟩ := rt_fields fs h
    refine ⟨.mapValue (.someFields efs), ?_, ?_⟩
    · rw [encodeItem, h1]
    · rw [parseFirestoreValue, h2]
  | .vnull => simp [goodItem] at h
  | .vundefined => simp [goodItem] at h
  | .date _ => simp [goodItem] at h
  | .func => simp [goodItem] at h
  | .arr _ => simp [goodItem] at h

theorem rt_fields (fs : JSFields) (h : goodFields fs = true) :
    ∃ efs, encodeFields fs = some efs ∧ parseFields efs = some fs := by
  match fs with
  | .nil => exact ⟨.nil, rfl, rfl⟩
  | .cons k v rest =>
    rw [goodFields, Bool.and_eq_true] at h
    obtain ⟨fv, h1, h2⟩ := rt_field v h.1
    obtain ⟨efs, h3, h4⟩ := rt_fields rest h.2
    refine ⟨.cons k fv efs, ?_, ?_⟩
    · rw [encodeFields, h1, h3]
    · rw [parseFields, h2, h4]

theorem rt_items (xs : JSList) (h : goodItems xs = true) :
    ∃ vs, encodeItems xs = some vs ∧ parseItems vs = some xs := by
  match xs with
  | .nil => exact ⟨.nil, rfl, rfl⟩
  | .cons x rest =>
    rw [goodItems, Bool.and_eq_true] at h
    obtain ⟨fv, h1, h2⟩ := rt_item x h.1
    obtain ⟨vs, h3, h4⟩ := rt_items rest h.2
    refine ⟨.cons fv vs, ?_, ?_⟩
    · rw [encodeItems, h1, h3]
    · rw [parseItems, h2, h4]

end

/-!
Decoder totality support (for the wire values the store can actually
send, i.e. everything except the encoder-internal `undefinedSlot` slot).
-/

mutual

def wireVal : FireVal → Bool
  | .undefinedSlot => false
  | .mapValue (.someFields fs) => wireFields fs
  | .arrayValue (.someValues vs) => wireList vs
  | _ => true

def wireFields : FireFields → Bool
  | .nil => true
  | .cons _ v fs => wireVal v && wireFields fs

def wireList : FireList → Bool
  | .nil => true
  | .cons v vs => wireVal v && wireList vs

end

mutual

theorem wire_total (v : FireVal) (h : wireVal v = true) :
    (parseFirestoreValue v).isSome = true := by
  match v with
  | .stringValue _ => rfl
  | .doubleValue _ => rfl
  | .integerValue _ => rfl
  | .booleanValue _ => rfl
  | .timestampValue _ => rfl
  | .nullValue => rfl
  | .unknown => rfl
  | .undefinedSlot => simp [wireVal] at h
  | .mapValue .noFields => rfl
  | .mapValue (.someFields fs) =>
    rw [wireVal] at h
    have := wireFields_total fs h
    rw [parseFirestoreValue]
    cases hp : parseFields fs with
    | none => rw [hp] at this; simp at this
    | some pfs => simp
  | .arrayValue .noValues => rfl
  | .arrayValue (.someValues vs) =>
    rw [wireVal] at h
    have := wireList_total vs h
    rw [parseFirestoreValue]
    cases hp : parseItems vs with
    | none => rw [hp] at this; simp at this
    | some pvs => simp

theorem wireFields_total (fs : FireFields) (h : wireFields fs = true) :
    (parseFields fs).isSome = true := by
  match fs with
  | .nil => rfl
  | .cons k v rest =>
    rw [wireFields, Bool.and_eq_true] at h
    have h1 := wire_total v h.1
    have h2 := wireFields_total rest h.2
    rw [parseFields]
    cases hv : parseFirestoreValue v with
    | none => rw [hv] at h1; simp at h1
    | some pv =>
      cases hr : parseFields rest with
      | none => rw [hr] at h2; simp at h2
      | some pfs => simp

theorem wireList_total (vs : FireList) (h : wireList vs = true) :
    (parseItems vs).isSome = true := by
  match vs with
  | .nil => rfl
  | .cons v rest =>
    rw [wireList, Bool.and_eq_true] at h
    have h1 := wire_total v h.1
    have h2 := wireList_total rest h.2
    rw [parseItems]
    cases hv : parseFirestoreValue v with
    | none => rw [hv] at h1; simp at h1
    | some pv =>
      cases hr : parseItems rest with
      | none => rw [hr] at h2; simp at h2
      | some pvs => simp

end

/-! Session-bound support lemmas. -/

theorem updateSessions_length {α : Type} (sessions : List α) (s : α) :
    (updateSessions sessions s).length ≤ 30 := by
  show (if (s :: sessions).length > 30 then (s :: sessions).take 30
      else s :: sessions).length ≤ 30
  split
  next => simp only [List.length_take]; omega
  next h => omega

theorem updateSessions_eq_take {α : Type} (sessions : List α) (s : α)
    (h : sessions.length ≤ 30) :
    updateSessions sessions s = (s :: sessions).take 30 := by
  show (if (s :: sessions).length > 30 then (s :: sessions).take 30
      else s :: sessions) = (s :: sessions).take 30
  split
  next => rfl
  next hl => exact (List.take_of_length_le (by omega)).symm

theorem take_append_take {α : Type} (A B : List α) (n : Nat) :
    (A ++ B.take n).take n = (A ++ B).take n := by
  rw [List.take_append_eq_append_take, List.take_append_eq_append_take,
    List.take_take]
  have h : min (n - A.length) n = n - A.length := by omega
  rw [h]

theorem runUpdates_eq_take {α : Type} (news sessions : List α)
    (h : sessions.length ≤ 30) :
    runUpdates sessions news = (news.reverse ++ sessions).take 30 := by
  induction news generalizing sessions with
  | nil =>
    simp [runUpdates, List.take_of_length_le h]
  | cons e rest ih =>
    have h1 : updateSessions sessions e = (e :: sessions).take 30 :=
      updateSessions_eq_take sessions e h
    have h2 : (updateSessions sessions e).length ≤ 30 :=
      updateSessions_length sessions e
    calc runUpdates sessions (e :: rest)
        = runUpdates (updateSessions sessions e) rest := rfl
      _ = (rest.reverse ++ updateSessions sessions e).take 30 := ih _ h2
      _ = (rest.reverse ++ (e :: sessions).take 30).take 30 := by rw [h1]
      _ = (rest.reverse ++ (e :: sessions)).take 30 := take_append_take ..
      _ = ((e :: rest).reverse ++ sessions).take 30 := by simp

/-! Store-invariance of the sync operations: none of the network
operations touches `localStorage`; only `migrateLocalStorage`'s final
`removeItem` does. -/

theorem fetchSt_store (st : St) (ev : Ev) (r : Resp) (st' : St)
    (h : fetchSt st ev = some (r, st')) : st'.store = st.store := by
  unfold fetchSt at h
  cases hr : st.resps with
  | nil => rw [hr] at h; cases h
  | cons a as =>
    rw [hr] at h
    simp only [Option.some.injEq, Prod.mk.injEq] at h
    rw [← h.2]

theorem refreshAuthToken_store (st : St) :
    (refreshAuthToken st).1.store = st.store := by
  obtain ⟨⟨uid, ftok, rtok, cu⟩, store, resps, log⟩ := st
  unfold refreshAuthToken fetchSt
  cases rtok with
  | none => rfl
  | some rt =>
    cases resps with
    | nil => rfl
    | cons r rs =>
      simp only
      split <;> rfl

theorem readUserDataWithToken_store (st : St) (token : String) :
    (readUserDataWithToken st token).1.store = st.store := by
  obtain ⟨⟨uid, ftok, rtok, cu⟩, store, resps, log⟩ := st
  unfold readUserDataWithToken fetchSt
  cases resps with
  | nil => rfl
  | cons r rs =>
    simp only
    split
    · split <;> rfl
    · rfl

theorem createUserDocument_store (st : St) (now : String) :
    (createUserDocument st now).1.store = st.store := by
  obtain ⟨⟨uid, ftok, rtok, cu⟩, store, resps, log⟩ := st
  unfold createUserDocument fetchSt
  cases cu with
  | none => rfl
  | some u =>
    cases resps with
    | nil => rfl
    | cons r rs =>
      simp only
      split
      · split <;> rfl
      · rfl

/-- The refresh-then-retry continuation of `readUserData`'s 401 branch
leaves `localStorage` untouched. -/
theorem refreshRetry_store (st1 : St) :
    (match refreshAuthToken st1 with
      | (st2, Except.error e) => (st2, (Except.error e : Except DbErr JSFields))
      | (st2, Except.ok newToken) =>
        readUserDataWithToken st2 newToken).1.store = st1.store := by
  rcases h3 : refreshAuthToken st1 with ⟨st2, res2⟩
  have hst2 : st2.store = st1.store := by
    have hh := refreshAuthToken_store st1
    rw [h3] at hh
    exact hh
  cases res2 with
  | error e => exact hst2
  | ok tok2 => exact (readUserDataWithToken_store st2 tok2).trans hst2

theorem readUserData_store (st : St) (now : String) :
    (readUserData st now).1.store = st.store := by
  obtain ⟨⟨uid, ftok, rtok, cu⟩, store, resps, log⟩ := st
  cases uid with
  | none => cases ftok <;> rfl
  | some u =>
    cases ftok with
    | none => rfl
    | some token =>
      cases resps with
      | nil => rfl
      | cons r rs =>
        unfold readUserData fetchSt
        simp only
        split
        · exact createUserDocument_store _ now
        · split
          · split <;> rfl
          · split
            · exact refreshRetry_store _
            · rfl

theorem updateGameData_store (st : St) (now gameName : String)
    (sessionData personalBests : JSVal) :
    (updateGameData st now gameName sessionData personalBests).1.store =
      st.store := by
  unfold updateGameData
  split
  · rfl
  · rfl
  · rcases h1 : readUserData st now with ⟨st1, res⟩
    have hst1 : st1.store = st.store := by
      have hh := readUserData_store st now
      rw [h1] at hh
      exact hh
    cases res with
    | error e => exact hst1
    | ok ud =>
      simp only
      repeat' split
      all_goals
        first
          | exact hst1
          | exact (fetchSt_store _ _ _ _ (by assumption)).trans hst1

/-! Remaining support lemmas. -/

theorem JSList.length_take_le : ∀ (xs : JSList) (n : Nat),
    (xs.take n).length ≤ n
  | xs, 0 => by cases xs <;> simp [JSList.take, JSList.length]
  | .nil, n + 1 => by simp [JSList.take, JSList.length]
  | .cons x xs, n + 1 => by
    have := JSList.length_take_le xs n
    simp only [JSList.take, JSList.length]
    omega

theorem updateSessionsJS_length (sessions : JSList) (s : JSVal) :
    (updateSessionsJS sessions s).length ≤ 30 := by
  show (if (JSList.cons s sessions).length > 30
      then (JSList.cons s sessions).take 30
      else JSList.cons s sessions).length ≤ 30
  split
  next => exact JSList.length_take_le _ 30
  next h => omega

/-- Number of token-refresh requests in a request log. -/
def countRefreshEvents : List Ev → Nat
  | [] => 0
  | .refreshFetch _ :: rest => 1 + countRefreshEvents rest
  | _ :: rest => countRefreshEvents rest

theorem countRefreshEvents_append : ∀ (l l' : List Ev),
    countRefreshEvents (l ++ l') =
      countRefreshEvents l + countRefreshEvents l'
  | [], l' => by simp [countRefreshEvents]
  | .refreshFetch t :: rest, l' => by
    have ih := countRefreshEvents_append rest l'
    simp only [List.cons_append, List.append_eq, countRefreshEvents, ih]
    omega
  | .readFetch t :: rest, l' => by
    have ih := countRefreshEvents_append rest l'
    simp only [List.cons_append, List.append_eq, countRefreshEvents, ih]
  | .createFetch t f :: rest, l' => by
    have ih := countRefreshEvents_append rest l'
    simp only [List.cons_append, List.append_eq, countRefreshEvents, ih]
  | .patchFetch t m f :: rest, l' => by
    have ih := countRefreshEvents_append rest l'
    simp only [List.cons_append, List.append_eq, countRefreshEvents, ih]

theorem lookupStore_removeStore : ∀ (l : List (String × String)) (k : String),
    lookupStore (removeStore l k) k = none
  | [], _ => rfl
  | (k', v) :: rest, k => by
    by_cases h : k' = k
    · simp only [removeStore, if_pos h]
      exact lookupStore_removeStore rest k
    · simp only [removeStore, if_neg h, lookupStore, if_neg h]
      exact lookupStore_removeStore rest k

/-!
Claim theorems.
-/

/-- C1 counterexample: the round-trip contract fails on a supported value
as soon as an array contains a `Date`: the encoder's array branch sends a
`Date` item through `Object.entries`, encoding it as an empty map, so it
decodes to an empty object instead of the original timestamp. -/
theorem roundtrip_counterexample_array_date :
    (objectToFirestoreFields
        (.cons "a" (.arr (.cons (.date "2024-01-01T00:00:00.000Z") .nil))
          .nil)).bind parseFields =
      some (.cons "a" (.arr (.cons (.obj .nil) .nil)) .nil) ∧
    JSFields.cons "a" (.arr (.cons (.obj .nil) .nil)) .nil ≠
      JSFields.cons "a"
        (.arr (.cons (.date "2024-01-01T00:00:00.000Z") .nil)) .nil :=
  ⟨rfl, by decide⟩

/-- C1 (amended): decoding the encoding is the identity for every value
whose fields are numbers, strings, booleans, `null`, `Date`s, nested
objects of such values, or arrays — provided each array element is a
number, string, boolean, or nested object (`goodFields`).  Arrays
containing `null`, `Date`, or nested-array elements are excluded: the
code throws on the first, and mangles the other two (see the
counterexample).  In this model numbers are a single type (mirroring the
collapsed integer/float distinction) and field order is preserved. -/
theorem decode_encode_roundtrip (fs : JSFields)
    (h : goodFields fs = true) :
    (objectToFirestoreFields fs).bind parseFields = some fs := by
  obtain ⟨efs, h1, h2⟩ := rt_fields fs h
  unfold objectToFirestoreFields
  rw [h1, Option.some_bind, h2]

theorem decode_encode_roundtrip_witness :
    goodFields
        (.cons "score" (.num 42)
          (.cons "name" (.str "w")
            (.cons "when" (.date "2024-01-01T00:00:00.000Z")
              (.cons "ok" (.boolean true)
                (.cons "missing" .vnull
                  (.cons "tags" (.arr (.cons (.str "x") (.cons (.num 3) .nil)))
                    (.cons "meta" (.obj (.cons "d" (.num 1) .nil))
                      .nil))))))) = true ∧
    (objectToFirestoreFields
        (.cons "score" (.num 42)
          (.cons "name" (.str "w")
            (.cons "when" (.date "2024-01-01T00:00:00.000Z")
              (.cons "ok" (.boolean true)
                (.cons "missing" .vnull
                  (.cons "tags" (.arr (.cons (.str "x") (.cons (.num 3) .nil)))
                    (.cons "meta" (.obj (.cons "d" (.num 1) .nil))
                      .nil)))))))).bind parseFields =
      some
        (.cons "score" (.num 42)
          (.cons "name" (.str "w")
            (.cons "when" (.date "2024-01-01T00:00:00.000Z")
              (.cons "ok" (.boolean true)
                (.cons "missing" .vnull
                  (.cons "tags" (.arr (.cons (.str "x") (.cons (.num 3) .nil)))
                    (.cons "meta" (.obj (.cons "d" (.num 1) .nil))
                      .nil))))))) :=
  ⟨rfl, decode_encode_roundtrip _ rfl⟩

set_option maxRecDepth 4000 in
/-- C2: `updateGameData`'s session-history manipulation keeps at most 30
sessions after every call; each call prepends the new entry and the
result is the 30-truncation of the prepended list (newest first); from
an empty history, a sequence of calls leaves the 30-truncation of the
reversed call sequence — in particular 31 sequential calls leave
exactly 30 sessions with the first-inserted entry (0) evicted and the
newest (30) at the head. -/
theorem updateGameData_sessions_bound :
    (∀ (α : Type) (sessions : List α) (s : α),
        (updateSessions sessions s).length ≤ 30) ∧
    (∀ (sessions : JSList) (s : JSVal),
        (updateSessionsJS sessions s).length ≤ 30) ∧
    (∀ (α : Type) (sessions : List α) (s : α), sessions.length ≤ 30 →
        updateSessions sessions s = (s :: sessions).take 30) ∧
    (∀ (α : Type) (news sessions : List α), sessions.length ≤ 30 →
        runUpdates sessions news = (news.reverse ++ sessions).take 30) ∧
    runUpdates ([] : List Nat) (List.range 31) =
      (List.range 31).reverse.take 30 ∧
    (runUpdates ([] : List Nat) (List.range 31)).length = 30 ∧
    0 ∉ runUpdates ([] : List Nat) (List.range 31) ∧
    (runUpdates ([] : List Nat) (List.range 31)).head? = some 30 :=
  ⟨fun _ => updateSessions_length, updateSessionsJS_length,
    fun _ => updateSessions_eq_take, fun _ => runUpdates_eq_take,
    by decide, by decide, by decide, by decide⟩

theorem updateGameData_sessions_bound_witness :
    runUpdates ([5] : List Nat) [1, 2, 3] =
      (([1, 2, 3] : List Nat).reverse ++ [5]).take 30 :=
  updateGameData_sessions_bound.2.2.2.1 Nat [1, 2, 3] [5] (by decide)

/-- C5: the record written by `createUserDocument` holds the signed-in
user's profile (email, displayName, photoURL, createdAt) and exactly 7
game sub-records — typing, dualNBack, mathGame, speedProcessing, stroop,
cpt, taskSwitching — each with zero sessions and
`personalBests.sessionsPlayed = 0`. -/
theorem createUserDocument_initial_record (u : GUser) (now : String) :
    (createInitialFields u now).keys = "profile" :: gameCategories ∧
    gameCategories.length = 7 ∧
    (createInitialFields u now).lookup "profile" =
      some (.mapValue (.someFields
        (.cons "email" (.stringValue (u.email.getD ""))
          (.cons "displayName" (.stringValue (u.displayName.getD ""))
            (.cons "photoURL" (.stringValue (u.photoURL.getD ""))
              (.cons "createdAt" (.timestampValue now) .nil)))))) ∧
    (createInitialFields u now).lookup "typing" =
      some (.mapValue (.someFields (getDefaultGameFields now))) ∧
    (createInitialFields u now).lookup "dualNBack" =
      some (.mapValue (.someFields (getDefaultGameFields now))) ∧
    (createInitialFields u now).lookup "mathGame" =
      some (.mapValue (.someFields (getDefaultGameFields now))) ∧
    (createInitialFields u now).lookup "speedProcessing" =
      some (.mapValue (.someFields (getDefaultGameFields now))) ∧
    (createInitialFields u now).lookup "stroop" =
      some (.mapValue (.someFields (getDefaultGameFields now))) ∧
    (createInitialFields u now).lookup "cpt" =
      some (.mapValue (.someFields (getDefaultGameFields now))) ∧
    (createInitialFields u now).lookup "taskSwitching" =
      some (.mapValue (.someFields (getDefaultGameFields now))) ∧
    (getDefaultGameFields now).lookup "sessions" =
      some (.arrayValue (.someValues .nil)) ∧
    (getDefaultGameFields now).lookup "personalBests" =
      some (.mapValue (.someFields
        (.cons "sessionsPlayed" (.doubleValue 0)
          (.cons "lastPlayed" (.timestampValue now) .nil)))) :=
  ⟨rfl, rfl, rfl, rfl, rfl, rfl, rfl, rfl, rfl, rfl, rfl, rfl⟩

/-- C6: the PATCH issued by `updateGameData` carries exactly the named
category as its single top-level field and masks the write to that field
alone, so — under the store's field-mask semantics — every other
category and the profile field are unchanged by the write. -/
theorem updateGameData_masked_single_field (g k : String)
    (pbf : FireFields) (sessEnc : FireList) (doc : FireFields)
    (hk : k ≠ g) :
    (updateGameFields g pbf sessEnc).keys = [g] ∧
    updateGameMask g = [g] ∧
    applyMaskedPatch doc (updateGameMask g)
        (updateGameFields g pbf sessEnc) k = doc.lookup k := by
  refine ⟨rfl, rfl, ?_⟩
  unfold applyMaskedPatch updateGameMask
  simp [hk]

theorem updateGameData_masked_single_field_witness :
    ("profile" : String) ≠ "stroop" ∧
    applyMaskedPatch
        (.cons "profile" .nullValue .nil) (updateGameMask "stroop")
        (updateGameFields "stroop" .nil .nil) "profile" =
      (FireFields.cons "profile" .nullValue .nil).lookup "profile" :=
  ⟨by decide,
    (updateGameData_masked_single_field "stroop" "profile" .nil .nil
      (.cons "profile" .nullValue .nil) (by decide)).2.2⟩

/-- C7 counterexample: `objectToFirestoreFields` does not fail on a
function value — it succeeds and silently drops the entry (here the
whole result is the encoding of the remaining entries, with no error of
any kind). -/
theorem encode_unsupported_counterexample :
    objectToFirestoreFields
        (.cons "best" (.num 5) (.cons "cb" .func .nil)) =
      some (.cons "best" (.doubleValue 5) .nil) := rfl

/-- C7 (amended): `objectToFirestoreFields` never raises an
`UnsupportedType` error: a value matching no branch of its type
dispatch (e.g. a function) falls through the `if`/`else if` chain and
its key is silently omitted, the rest encoding unchanged.  The code also
has no guard against cycles — it recurses blindly (cyclic structures are
not representable in this inductive model). -/
theorem encode_skips_unsupported (k : String) (fs : JSFields) :
    encodeFieldValue .func = .skip ∧
    objectToFirestoreFields (.cons k .func fs) =
      objectToFirestoreFields fs :=
  ⟨rfl, rfl⟩

/-- C9: `parseFirestoreValue` is total on every wire value (any tagged
value free of the encoder-internal `undefined` slot): an unrecognized
tag decodes to `null`, a `mapValue` with absent `fields` decodes to the
empty object, and an `arrayValue` with absent `values` decodes to the
empty array. -/
theorem parseFirestoreValue_total (v : FireVal) (h : wireVal v = true) :
    (parseFirestoreValue v).isSome = true ∧
    parseFirestoreValue .unknown = some .vnull ∧
    parseFirestoreValue (.mapValue .noFields) = some (.obj .nil) ∧
    parseFirestoreValue (.arrayValue .noValues) = some (.arr .nil) :=
  ⟨wire_total v h, rfl, rfl, rfl⟩

theorem parseFirestoreValue_total_witness :
    (parseFirestoreValue
        (.mapValue (.someFields
          (.cons "n" (.integerValue 7)
            (.cons "u" .unknown
              (.cons "a" (.arrayValue .noValues) .nil)))))).isSome = true ∧
    parseFirestoreValue .unknown = some .vnull ∧
    parseFirestoreValue (.mapValue .noFields) = some (.obj .nil) ∧
    parseFirestoreValue (.arrayValue .noValues) = some (.arr .nil) :=
  parseFirestoreValue_total _ rfl

/-- C3 counterexample: after a 401 read response and a failed refresh,
the session state still holds both tokens — `refreshAuthToken` merely
throws on a non-ok refresh response; nothing clears the token store or
signs the user out. -/
theorem refresh_failure_keeps_tokens_counterexample :
    readUserData
        ⟨⟨some "u", some "t", some "r", none⟩, [],
          [⟨401, none, "", ""⟩, ⟨400, none, "", ""⟩], []⟩ "NOW" =
      (⟨⟨some "u", some "t", some "r", none⟩, [], [],
          [.readFetch "t", .refreshFetch "r"]⟩,
        .error .refreshFailed) ∧
    (readUserData
        ⟨⟨some "u", some "t", some "r", none⟩, [],
          [⟨401, none, "", ""⟩, ⟨400, none, "", ""⟩], []⟩
        "NOW").1.sess.firebaseToken ≠ none ∧
    (readUserData
        ⟨⟨some "u", some "t", some "r", none⟩, [],
          [⟨401, none, "", ""⟩, ⟨400, none, "", ""⟩], []⟩
        "NOW").1.sess.refreshToken ≠ none :=
  ⟨rfl, by decide, by decide⟩

/-- C3 (amended): a 401 response to `readUserData`'s fetch triggers
exactly one token-refresh request; if the refresh response is not ok the
call fails with the refresh error, no retry is issued, and the stored
tokens are left exactly as they were (the code performs no sign-out and
no token-store clearing); if the refresh succeeds, exactly one retry of
the read is issued with the new token — whatever that retry's status,
no further refresh or retry follows. -/
theorem readUserData_401_policy
    (uid tok rt : String) (cu : Option GUser)
    (store0 : List (String × String)) (log0 : List Ev)
    (r1 r2 : Resp) (rest : List Resp) (now : String)
    (h401 : r1.status = 401) :
    (respOk r2.status = false →
      readUserData
          ⟨⟨some uid, some tok, some rt, cu⟩, store0, r1 :: r2 :: rest, log0⟩
          now =
        (⟨⟨some uid, some tok, some rt, cu⟩, store0, rest,
            log0 ++ [.readFetch tok, .refreshFetch rt]⟩,
          .error .refreshFailed)) ∧
    (∀ r3 rest', rest = r3 :: rest' → respOk r2.status = true →
      readUserData
          ⟨⟨some uid, some tok, some rt, cu⟩, store0, r1 :: r2 :: rest, log0⟩
          now =
        (⟨⟨some uid, some r2.idToken, some r2.newRefresh, cu⟩, store0, rest',
            log0 ++ [.readFetch tok, .refreshFetch rt,
              .readFetch r2.idToken]⟩,
          if respOk r3.status then
            match parseFirestoreDocument r3.docFields with
            | none => .error .typeError
            | some ud => .ok ud
          else .error .readRetryFailed)) := by
  obtain ⟨s1, d1, i1, n1⟩ := r1
  have hs1 : s1 = 401 := h401
  subst hs1
  constructor
  · intro h2
    have h2' : ¬(200 ≤ r2.status ∧ r2.status < 300) := by
      simp [respOk] at h2
      omega
    simp [readUserData, fetchSt, refreshAuthToken, readUserDataWithToken,
      respOk, h2']
  · intro r3 rest' hrest h2
    subst hrest
    have h2' : 200 ≤ r2.status ∧ r2.status < 300 := by
      simp [respOk] at h2
      omega
    simp [readUserData, fetchSt, refreshAuthToken, readUserDataWithToken,
      respOk, h2']
    split
    · split <;> rfl
    · rfl

theorem readUserData_401_policy_witness :
    readUserData
        ⟨⟨some "u", some "t", some "r", none⟩, [],
          [⟨401, none, "", ""⟩, ⟨200, none, "t2", "r2"⟩,
            ⟨200, some .nil, "", ""⟩], []⟩ "N" =
      (⟨⟨some "u", some "t2", some "r2", none⟩, [], [],
          [.readFetch "t", .refreshFetch "r", .readFetch "t2"]⟩,
        .ok .nil) := by
  have h := (readUserData_401_policy "u" "t" "r" none [] []
      ⟨401, none, "", ""⟩ ⟨200, none, "t2", "r2"⟩
      [⟨200, some .nil, "", ""⟩] "N" rfl).2
      ⟨200, some .nil, "", ""⟩ [] rfl rfl
  exact h

/-- C4 counterexample: a 401 on `updateGameData`'s own PATCH is not
retried and triggers no refresh — the call fails with the update error
and the request log contains no token-refresh request at all. -/
theorem updateGameData_patch_401_counterexample :
    updateGameData
        ⟨⟨some "u", some "t", some "r", none⟩, [],
          [⟨200, some (.cons "stroop" (.mapValue (.someFields
              (.cons "sessions" (.arrayValue (.someValues .nil)) .nil)))
              .nil), "", ""⟩,
            ⟨401, none, "", ""⟩], []⟩
        "NOW" "stroop" (.obj .nil) (.obj .nil) =
      (⟨⟨some "u", some "t", some "r", none⟩, [], [],
          [.readFetch "t",
            .patchFetch "t" ["stroop"]
              (.cons "stroop"
                (.mapValue (.someFields
                  (.cons "personalBests" (.mapValue (.someFields .nil))
                    (.cons "sessions"
                      (.arrayValue (.someValues
                        (.cons (.mapValue (.someFields .nil)) .nil)))
                      .nil))))
                .nil)]⟩,
        .error .updateFailed) ∧
    countRefreshEvents
        [Ev.readFetch "t",
          Ev.patchFetch "t" ["stroop"]
            (.cons "stroop"
              (.mapValue (.someFields
                (.cons "personalBests" (.mapValue (.someFields .nil))
                  (.cons "sessions"
                    (.arrayValue (.someValues
                      (.cons (.mapValue (.someFields .nil)) .nil)))
                    .nil))))
              .nil)] = 0 :=
  ⟨rfl, rfl⟩

/-- C4 (amended): `updateGameData`'s embedded read path refreshes and
retries like `readUserData`, but its own write does not: when the PATCH
receives a 401 the call fails with `updateFailed`, issuing no
token-refresh request and no second PATCH — the request log grows by
exactly the read and the single PATCH, with its refresh-request count
unchanged. -/
theorem updateGameData_patch_401_no_retry
    (uid tok rt : String) (cu : Option GUser)
    (store0 : List (String × String)) (log0 : List Ev)
    (r1 r2 : Resp) (rest : List Resp) (now g : String) (sd pb : JSVal)
    (ud gfs : JSFields) (xs : JSList) (pbf : FireFields)
    (sessEnc : FireList)
    (h1ok : respOk r1.status = true)
    (hud : parseFirestoreDocument r1.docFields = some ud)
    (hg : ud.lookup g = some (.obj gfs))
    (hsess : gfs.lookup "sessions" = some (.arr xs))
    (hpb : objectToFirestoreFieldsV pb = some pbf)
    (hse : encodeSessionList (updateSessionsJS xs sd) = some sessEnc)
    (h401 : r2.status = 401) :
    updateGameData ⟨⟨some uid, some tok, some rt, cu⟩, store0,
        r1 :: r2 :: rest, log0⟩ now g sd pb =
      (⟨⟨some uid, some tok, some rt, cu⟩, store0, rest,
          log0 ++ [.readFetch tok,
            .patchFetch tok (updateGameMask g)
              (updateGameFields g pbf sessEnc)]⟩,
        .error .updateFailed) ∧
    countRefreshEvents (log0 ++ [.readFetch tok,
        .patchFetch tok (updateGameMask g)
          (updateGameFields g pbf sessEnc)]) = countRefreshEvents log0 := by
  have h1' : 200 ≤ r1.status ∧ r1.status < 300 := by
    simp [respOk] at h1ok
    omega
  have h404 : ¬ r1.status = 404 := by omega
  obtain ⟨s2, d2, i2, n2⟩ := r2
  have hs2 : s2 = 401 := h401
  subst hs2
  refine ⟨?_, ?_⟩
  · simp [updateGameData, readUserData, fetchSt, respOk, h1', h404, hud,
      hg, isFalsy, hsess, hpb, hse]
  · rw [countRefreshEvents_append]
    rfl

theorem updateGameData_patch_401_no_retry_witness :
    updateGameData
        ⟨⟨some "u", some "t", some "r", none⟩, [],
          [⟨200, some (.cons "cpt" (.mapValue (.someFields
              (.cons "sessions" (.arrayValue (.someValues .nil)) .nil)))
              .nil), "", ""⟩,
            ⟨401, none, "", ""⟩], []⟩
        "NOW" "cpt" (.obj .nil) (.obj .nil) =
      (⟨⟨some "u", some "t", some "r", none⟩, [], [],
          [.readFetch "t",
            .patchFetch "t" (updateGameMask "cpt")
              (updateGameFields "cpt" .nil
                (.cons (.mapValue (.someFields .nil)) .nil))]⟩,
        .error .updateFailed) ∧
    countRefreshEvents ([] ++ [.readFetch "t",
        .patchFetch "t" (updateGameMask "cpt")
          (updateGameFields "cpt" .nil
            (.cons (.mapValue (.someFields .nil)) .nil))]) =
      countRefreshEvents [] :=
  updateGameData_patch_401_no_retry "u" "t" "r" none [] []
    ⟨200, some (.cons "cpt" (.mapValue (.someFields
        (.cons "sessions" (.arrayValue (.someValues .nil)) .nil))) .nil),
      "", ""⟩
    ⟨401, none, "", ""⟩ [] "NOW" "cpt" (.obj .nil) (.obj .nil)
    (.cons "cpt" (.obj (.cons "sessions" (.arr .nil) .nil)) .nil)
    (.cons "sessions" (.arr .nil) .nil) .nil .nil
    (.cons (.mapValue (.someFields .nil)) .nil)
    rfl rfl rfl rfl rfl rfl rfl

/-- C10: when the named category is absent from the fetched record,
`updateGameData` still succeeds by treating the missing sub-record as
the empty default (no sessions, no personal bests): the written
sub-record's sessions hold exactly the one new session entry. -/
theorem updateGameData_missing_category
    (uid tok rt : String) (cu : Option GUser)
    (store0 : List (String × String)) (log0 : List Ev)
    (r1 r2 : Resp) (rest : List Resp) (now g : String) (sd pb : JSVal)
    (ud : JSFields) (sdf pbf : FireFields)
    (h1ok : respOk r1.status = true)
    (hud : parseFirestoreDocument r1.docFields = some ud)
    (hmiss : ud.lookup g = none)
    (hpb : objectToFirestoreFieldsV pb = some pbf)
    (hsd : objectToFirestoreFieldsV sd = some sdf)
    (h2ok : respOk r2.status = true) :
    updateGameData ⟨⟨some uid, some tok, some rt, cu⟩, store0,
        r1 :: r2 :: rest, log0⟩ now g sd pb =
      (⟨⟨some uid, some tok, some rt, cu⟩, store0, rest,
          log0 ++ [.readFetch tok,
            .patchFetch tok (updateGameMask g)
              (updateGameFields g pbf
                (.cons (.mapValue (.someFields sdf)) .nil))]⟩,
        .ok ()) := by
  have h1' : 200 ≤ r1.status ∧ r1.status < 300 := by
    simp [respOk] at h1ok
    omega
  have h404 : ¬ r1.status = 404 := by omega
  have h2' : 200 ≤ r2.status ∧ r2.status < 300 := by
    simp [respOk] at h2ok
    omega
  simp [updateGameData, readUserData, fetchSt, respOk, h1', h404, hud,
    hmiss, defaultGameData, JSFields.lookup, updateSessionsJS,
    JSList.length, encodeSessionList, hsd, hpb, h2']

theorem updateGameData_missing_category_witness :
    updateGameData
        ⟨⟨some "u", some "t", some "r", none⟩, [],
          [⟨200, some .nil, "", ""⟩, ⟨204, none, "", ""⟩], []⟩
        "NOW" "stroop" (.obj (.cons "wpm" (.num 88) .nil)) (.obj .nil) =
      (⟨⟨some "u", some "t", some "r", none⟩, [], [],
          [.readFetch "t",
            .patchFetch "t" (updateGameMask "stroop")
              (updateGameFields "stroop" .nil
                (.cons (.mapValue (.someFields
                  (.cons "wpm" (.doubleValue 88) .nil))) .nil))]⟩,
        .ok ()) :=
  updateGameData_missing_category "u" "t" "r" none [] []
    ⟨200, some .nil, "", ""⟩ ⟨204, none, "", ""⟩ [] "NOW" "stroop"
    (.obj (.cons "wpm" (.num 88) .nil)) (.obj .nil) .nil
    (.cons "wpm" (.doubleValue 88) .nil) .nil
    rfl rfl rfl rfl rfl rfl

/-- C8: `migrateLocalStorage` returns `false` without any work (no
network request, no state change) when no legacy record is stored under
the key; it returns `false` with the legacy record intact on a JSON
parse failure; whenever it returns `false` — for any reason, a sync
failure included — `localStorage` is unchanged; and it returns `true`
exactly when the `updateGameData` sync succeeded, deleting the legacy
record only then. -/
theorem migrateLocalStorage_safety
    (parseJson : String → Option JSVal) (st : St) (now g key : String) :
    (lookupStore st.store key = none →
      migrateLocalStorage parseJson st now g key = (st, false)) ∧
    (∀ s, lookupStore st.store key = some s → s ≠ "" → parseJson s = none →
      migrateLocalStorage parseJson st now g key = (st, false)) ∧
    ((migrateLocalStorage parseJson st now g key).2 = false →
      (migrateLocalStorage parseJson st now g key).1.store = st.store) ∧
    ((migrateLocalStorage parseJson st now g key).2 = true →
      ∃ s pd lp st1,
        lookupStore st.store key = some s ∧ parseJson s = some pd ∧
        jsGetProp pd "lastPlayed" = .ok lp ∧
        updateGameData st now g (.obj (migrationSession pd lp now)) pd =
          (st1, .ok ()) ∧
        (migrateLocalStorage parseJson st now g key).1 =
          { st1 with store := removeStore st1.store key } ∧
        lookupStore (migrateLocalStorage parseJson st now g key).1.store key
          = none) := by
  refine ⟨?_, ?_, ?_, ?_⟩
  · intro h
    unfold migrateLocalStorage
    rw [h]
  · intro s hs hne hp
    unfold migrateLocalStorage
    rw [hs]
    simp [hne, hp]
  · intro hfalse
    rcases hm : migrateLocalStorage parseJson st now g key with ⟨stf, b⟩
    rw [hm] at hfalse
    have hb : b = false := hfalse
    subst hb
    unfold migrateLocalStorage at hm
    split at hm
    · simp only [Prod.mk.injEq] at hm
      rw [← hm.1]
    · rename_i s hs
      split at hm
      · simp only [Prod.mk.injEq] at hm
        rw [← hm.1]
      · rename_i hne
        split at hm
        · simp only [Prod.mk.injEq] at hm
          rw [← hm.1]
        · rename_i pd hp
          split at hm
          · simp only [Prod.mk.injEq] at hm
            rw [← hm.1]
          · rename_i lp hjp
            split at hm
            · rename_i st1 e heq
              simp only [Prod.mk.injEq] at hm
              have hst1 := updateGameData_store st now g
                (JSVal.obj (migrationSession pd lp now)) pd
              rw [heq] at hst1
              rw [← hm.1]
              exact hst1
            · simp only [Prod.mk.injEq] at hm
              exact absurd hm.2.symm (by simp)
  · intro htrue
    rcases hm : migrateLocalStorage parseJson st now g key with ⟨stf, b⟩
    rw [hm] at htrue
    have hb : b = true := htrue
    subst hb
    unfold migrateLocalStorage at hm
    split at hm
    · simp only [Prod.mk.injEq] at hm
      exact absurd hm.2.symm (by simp)
    · rename_i s hs
      split at hm
      · simp only [Prod.mk.injEq] at hm
        exact absurd hm.2.symm (by simp)
      · rename_i hne
        split at hm
        · simp only [Prod.mk.injEq] at hm
          exact absurd hm.2.symm (by simp)
        · rename_i pd hp
          split at hm
          · simp only [Prod.mk.injEq] at hm
            exact absurd hm.2.symm (by simp)
          · rename_i lp hjp
            split at hm
            · simp only [Prod.mk.injEq] at hm
              exact absurd hm.2.symm (by simp)
            · rename_i st1 u heq
              simp only [Prod.mk.injEq] at hm
              cases u
              refine ⟨s, pd, lp, st1, hs, hp, hjp, heq, ?_, ?_⟩
              · rw [← hm.1]
              · rw [← hm.1]
                exact lookupStore_removeStore _ key

theorem migrateLocalStorage_safety_witness :
    migrateLocalStorage (fun _ => none)
        ⟨⟨none, none, none, none⟩, [], [], []⟩ "N" "stroop"
        "focus-games-stroop" =
      (⟨⟨none, none, none, none⟩, [], [], []⟩, false) :=
  (migrateLocalStorage_safety (fun _ => none)
      ⟨⟨none, none, none, none⟩, [], [], []⟩ "N" "stroop"
      "focus-games-stroop").1 rfl
